import Mathlib

/-!
Shallow embedding of the TETRIS-99 core: the board/piece simulation engine
(`TetrisGameEngine`, src/unnamed/part_003), the piece catalog and generator
(src/js/tetris-pieces.js), and the heuristic AI move search (`AIPlayer`,
src/unnamed/part_000).  JavaScript numbers are modelled as `Nat`/`Int`,
cells as `Option`, `Math.random` as an explicit oracle stream of naturals,
and the AI's row/piece objects as an explicit heap so that aliasing facts
(which rows a write can touch) are visible.
-/

/-- The seven tetromino types (tetris-pieces.js `PIECE_COLORS` keys). -/
inductive PieceType where
  | I | O | T | S | Z | J | L
deriving DecidableEq, Repr

/-- Source `PIECE_COLORS` table. -/
def PIECE_COLORS : PieceType → String
  | PieceType.I => "#00ffff"
  | PieceType.O => "#ffff00"
  | PieceType.T => "#800080"
  | PieceType.S => "#00ff00"
  | PieceType.Z => "#ff0000"
  | PieceType.J => "#0000ff"
  | PieceType.L => "#ffa500"

/-- The string name the source uses for a piece type (its object key). -/
def typeName : PieceType → String
  | PieceType.I => "I"
  | PieceType.O => "O"
  | PieceType.T => "T"
  | PieceType.S => "S"
  | PieceType.Z => "Z"
  | PieceType.J => "J"
  | PieceType.L => "L"

/-- Source `PIECE_SHAPES`: per type, the list of rotation states, each a 4x4
grid of 0/1 flags. -/
def PIECE_SHAPES : PieceType → List (List (List Nat))
  | PieceType.I =>
      [[[0, 0, 0, 0], [1, 1, 1, 1], [0, 0, 0, 0], [0, 0, 0, 0]],
       [[0, 0, 1, 0], [0, 0, 1, 0], [0, 0, 1, 0], [0, 0, 1, 0]],
       [[0, 0, 0, 0], [0, 0, 0, 0], [1, 1, 1, 1], [0, 0, 0, 0]],
       [[0, 1, 0, 0], [0, 1, 0, 0], [0, 1, 0, 0], [0, 1, 0, 0]]]
  | PieceType.O =>
      [[[0, 0, 0, 0], [0, 1, 1, 0], [0, 1, 1, 0], [0, 0, 0, 0]]]
  | PieceType.T =>
      [[[0, 0, 0, 0], [0, 1, 0, 0], [1, 1, 1, 0], [0, 0, 0, 0]],
       [[0, 0, 0, 0], [0, 1, 0, 0], [0, 1, 1, 0], [0, 1, 0, 0]],
       [[0, 0, 0, 0], [0, 0, 0, 0], [1, 1, 1, 0], [0, 1, 0, 0]],
       [[0, 0, 0, 0], [0, 1, 0, 0], [1, 1, 0, 0], [0, 1, 0, 0]]]
  | PieceType.S =>
      [[[0, 0, 0, 0], [0, 1, 1, 0], [1, 1, 0, 0], [0, 0, 0, 0]],
       [[0, 0, 0, 0], [0, 1, 0, 0], [0, 1, 1, 0], [0, 0, 1, 0]],
       [[0, 0, 0, 0], [0, 0, 0, 0], [0, 1, 1, 0], [1, 1, 0, 0]],
       [[0, 0, 0, 0], [1, 0, 0, 0], [1, 1, 0, 0], [0, 1, 0, 0]]]
  | PieceType.Z =>
      [[[0, 0, 0, 0], [1, 1, 0, 0], [0, 1, 1, 0], [0, 0, 0, 0]],
       [[0, 0, 0, 0], [0, 0, 1, 0], [0, 1, 1, 0], [0, 1, 0, 0]],
       [[0, 0, 0, 0], [0, 0, 0, 0], [1, 1, 0, 0], [0, 1, 1, 0]],
       [[0, 0, 0, 0], [0, 1, 0, 0], [1, 1, 0, 0], [1, 0, 0, 0]]]
  | PieceType.J =>
      [[[0, 0, 0, 0], [1, 0, 0, 0], [1, 1, 1, 0], [0, 0, 0, 0]],
       [[0, 0, 0, 0], [0, 1, 1, 0], [0, 1, 0, 0], [0, 1, 0, 0]],
       [[0, 0, 0, 0], [0, 0, 0, 0], [1, 1, 1, 0], [0, 0, 1, 0]],
       [[0, 0, 0, 0], [0, 1, 0, 0], [0, 1, 0, 0], [1, 1, 0, 0]]]
  | PieceType.L =>
      [[[0, 0, 0, 0], [0, 0, 1, 0], [1, 1, 1, 0], [0, 0, 0, 0]],
       [[0, 0, 0, 0], [0, 1, 0, 0], [0, 1, 0, 0], [0, 1, 1, 0]],
       [[0, 0, 0, 0], [0, 0, 0, 0], [1, 1, 1, 0], [1, 0, 0, 0]],
       [[0, 0, 0, 0], [1, 1, 0, 0], [0, 1, 0, 0], [0, 1, 0, 0]]]

/-- A board cell's payload, the source's cell literal with `color` and `type`
fields; garbage cells carry the string "garbage" as their `type`. -/
structure Cellv where
  color : String
  tname : String
deriving DecidableEq, Repr

/-- A cell is `null` (empty) or an occupied-cell object. -/
abbrev Cell := Option Cellv

/-- One board row, left to right. -/
abbrev Row := List Cell

/-- The board: rows top to bottom (row 0 = top), as in the source. -/
abbrev Board := List Row

/-- Source class `TetrisPiece`: type, position of the 4x4 bounding box, and
rotation index.  `color` and `shape` are functions of `type` in the source
and are recovered through `PIECE_COLORS` / `PIECE_SHAPES`. -/
structure TetrisPiece where
  type : PieceType
  x : Int
  y : Int
  rotation : Nat
deriving DecidableEq, Repr

/-- Source `new TetrisPiece(type)` with the default position x = 3, y = 0
and rotation 0. -/
def newPiece (t : PieceType) : TetrisPiece := ⟨t, 3, 0, 0⟩

/-- Source `TetrisPiece.getCurrentShape`: the 4x4 grid for the current
rotation. -/
def TetrisPiece.getCurrentShape (p : TetrisPiece) : List (List Nat) :=
  (PIECE_SHAPES p.type).getD p.rotation []

/-- Source `TetrisPiece.getBlocks`: absolute coordinates of the occupied
cells, scanning the 4x4 grid row by row then column by column. -/
def TetrisPiece.getBlocks (p : TetrisPiece) : List (Int × Int) :=
  (List.range 4).flatMap (fun row =>
    (List.range 4).filterMap (fun col =>
      if ((p.getCurrentShape.getD row []).getD col 0) ≠ 0 then
        some (p.x + col, p.y + row)
      else none))

/-- Source `TetrisPiece.isTSpin(board)`: for a T piece, counts how many of
the four bounding-box corners are out of the literal 10x20 bounds or occupied
on the given board, and reports a T-Spin when at least 3 are. -/
def TetrisPiece.isTSpin (p : TetrisPiece) (board : Board) : Bool :=
  if p.type ≠ PieceType.T then false
  else
    let corners : List (Int × Int) :=
      [(p.x, p.y), (p.x + 2, p.y), (p.x, p.y + 2), (p.x + 2, p.y + 2)]
    let occupiedCorners := (corners.filter (fun c =>
      c.1 < 0 ∨ c.1 ≥ 10 ∨ c.2 < 0 ∨ c.2 ≥ 20 ∨
        ((board.getD c.2.toNat []).getD c.1.toNat none).isSome)).length
    occupiedCorners ≥ 3

/-- Source `WALL_KICK_DATA['JLSTZ']`, keyed by the from/to rotation pair;
missing keys yield the empty list, as `|| []` does in the source. -/
def wallKickJLSTZ : Nat → Nat → List (Int × Int)
  | 0, 1 => [(-1, 0), (-1, 1), (0, -2), (-1, -2)]
  | 1, 0 => [(1, 0), (1, -1), (0, 2), (1, 2)]
  | 1, 2 => [(1, 0), (1, -1), (0, 2), (1, 2)]
  | 2, 1 => [(-1, 0), (-1, 1), (0, -2), (-1, -2)]
  | 2, 3 => [(1, 0), (1, 1), (0, -2), (1, -2)]
  | 3, 2 => [(-1, 0), (-1, -1), (0, 2), (-1, 2)]
  | 3, 0 => [(-1, 0), (-1, -1), (0, 2), (-1, 2)]
  | 0, 3 => [(1, 0), (1, 1), (0, -2), (1, -2)]
  | _, _ => []

/-- Source `WALL_KICK_DATA['I']`. -/
def wallKickI : Nat → Nat → List (Int × Int)
  | 0, 1 => [(-2, 0), (1, 0), (-2, -1), (1, 2)]
  | 1, 0 => [(2, 0), (-1, 0), (2, 1), (-1, -2)]
  | 1, 2 => [(-1, 0), (2, 0), (-1, 2), (2, -1)]
  | 2, 1 => [(1, 0), (-2, 0), (1, -2), (-2, 1)]
  | 2, 3 => [(2, 0), (-1, 0), (2, 1), (-1, -2)]
  | 3, 2 => [(-2, 0), (1, 0), (-2, -1), (1, 2)]
  | 3, 0 => [(1, 0), (-2, 0), (1, -2), (-2, 1)]
  | 0, 3 => [(-1, 0), (2, 0), (-1, 2), (2, -1)]
  | _, _ => []

/-- Source `getWallKickData`: `[[0,0]]` for the O piece, otherwise `(0,0)`
prepended to the I or JLSTZ table entry for the transition. -/
def getWallKickData (pieceType : PieceType) (fromRotation toRotation : Nat) :
    List (Int × Int) :=
  if pieceType = PieceType.O then [(0, 0)]
  else if pieceType = PieceType.I then
    (0, 0) :: wallKickI fromRotation toRotation
  else
    (0, 0) :: wallKickJLSTZ fromRotation toRotation

/-- The `Math.random` oracle: an infinite stream of naturals and a cursor.
A call that the source makes as `Math.floor(Math.random() * bound)` is
modelled by reading the next stream value modulo `bound`. -/
structure Rng where
  seq : Nat → Nat
  pos : Nat

/-- Draw one oracle value below `bound` and advance the cursor. -/
def Rng.randBelow (r : Rng) (bound : Nat) : Nat × Rng :=
  (r.seq r.pos % bound, ⟨r.seq, r.pos + 1⟩)

/-- Swap two positions of a list (the JS destructuring swap); out-of-range
indices leave the list unchanged (they never occur in the source's loops). -/
def listSwap {α : Type} (l : List α) (i j : Nat) : List α :=
  match l.get? i, l.get? j with
  | some a, some b => (l.set i b).set j a
  | _, _ => l

/-- The Fisher-Yates loop body of `refillBag`/`preview`: processing index
`i` swaps position `i` with a random position in `[0, i]`, then recurses
downward; the argument is the current index. -/
def fisherYatesAux {α : Type} : Nat → List α → Rng → List α × Rng
  | 0, l, r => (l, r)
  | Nat.succ i, l, r =>
      let jr := r.randBelow (i + 2)
      fisherYatesAux i (listSwap l (i + 1) jr.1) jr.2

/-- Source Fisher-Yates shuffle: indices from `length - 1` down to `1`. -/
def fisherYates {α : Type} (l : List α) (r : Rng) : List α × Rng :=
  fisherYatesAux (l.length - 1) l r

/-- The source's fixed seven-piece list `['I','O','T','S','Z','J','L']`. -/
def sevenPieces : List PieceType :=
  [PieceType.I, PieceType.O, PieceType.T, PieceType.S,
   PieceType.Z, PieceType.J, PieceType.L]

/-- Source class `PieceGenerator`: its whole own state is the bag array. -/
structure PieceGenerator where
  bag : List PieceType
deriving DecidableEq, Repr

/-- Source `PieceGenerator.refillBag`: a freshly shuffled seven-piece bag. -/
def PieceGenerator.refillBag (r : Rng) : PieceGenerator × Rng :=
  let br := fisherYates sevenPieces r
  (⟨br.1⟩, br.2)

/-- Source `PieceGenerator.getNext`: refill when empty, then `pop()` the
last bag entry and build a fresh piece of that type.  The `none` piece case
is unreachable because a refilled bag is never empty. -/
def PieceGenerator.getNext (g : PieceGenerator) (r : Rng) :
    Option TetrisPiece × PieceGenerator × Rng :=
  let gr := if g.bag.isEmpty then PieceGenerator.refillBag r else (g, r)
  match gr.1.bag.getLast? with
  | some t => (some (newPiece t), ⟨gr.1.bag.dropLast⟩, gr.2)
  | none => (none, gr.1, gr.2)

/-- The loop of `PieceGenerator.preview` on the temporary bag copy: when the
copy runs out it is refilled with the seven pieces and shuffled (consuming
oracle values), then popped.  The generator's own bag is never touched. -/
def previewAux : Nat → List PieceType → Rng → List PieceType × Rng
  | 0, _, r => ([], r)
  | Nat.succ n, tb, r =>
      let tbr := if tb.isEmpty then fisherYates sevenPieces r else (tb, r)
      match tbr.1.getLast? with
      | some t =>
          let rest := previewAux n tbr.1.dropLast tbr.2
          (t :: rest.1, rest.2)
      | none => ([], tbr.2)

/-- Source `PieceGenerator.preview(count)`: operates on `[...this.bag]`. -/
def PieceGenerator.preview (g : PieceGenerator) (count : Nat) (r : Rng) :
    List PieceType × Rng :=
  previewAux count g.bag r

/-- `count` consecutive real `getNext` draws, collecting the piece types. -/
def drawTypes : Nat → PieceGenerator → Rng → List PieceType × PieceGenerator × Rng
  | 0, g, r => ([], g, r)
  | Nat.succ n, g, r =>
      match g.getNext r with
      | (some p, g1, r1) =>
          let rest := drawTypes n g1 r1
          (p.type :: rest.1, rest.2)
      | (none, g1, r1) => ([], g1, r1)

/-- Source `createEmptyBoard` for one row: `Array(width).fill(null)`. -/
def emptyRow (width : Nat) : Row := List.replicate width none

/-- Source `createEmptyBoard`: `height` rows of `width` empty cells. -/
def createEmptyBoard (width height : Nat) : Board :=
  List.replicate height (emptyRow width)

/-- The `switch` of `calculateScore` for T-Spin locks. -/
def tSpinScoreTable : Nat → Nat
  | 0 => 400
  | 1 => 800
  | 2 => 1200
  | 3 => 1600
  | _ => 0

/-- The `switch` of `calculateScore` for normal locks. -/
def normalScoreTable : Nat → Nat
  | 1 => 100
  | 2 => 300
  | 3 => 500
  | 4 => 800
  | _ => 0

/-- The `switch` of `getAttackLines` for T-Spin clears. -/
def tSpinAttackTable : Nat → Nat
  | 0 => 0
  | 1 => 2
  | 2 => 4
  | 3 => 6
  | _ => 0

/-- The `switch` of `getAttackLines` for normal clears. -/
def normalAttackTable : Nat → Nat
  | 1 => 0
  | 2 => 1
  | 3 => 2
  | 4 => 4
  | _ => 0

/-- Source class `TetrisGameEngine`: one competitor's full state.  The
`stats` object is flattened into `stats...` fields; the `onSoundEffect`
callback and the sound calls are pure observers and are omitted. -/
structure TetrisGameEngine where
  width : Nat
  height : Nat
  board : Board
  currentPiece : Option TetrisPiece
  nextPiece : Option TetrisPiece
  holdPiece : Option TetrisPiece
  canHold : Bool
  pieceGenerator : PieceGenerator
  rng : Rng
  score : Nat
  level : Nat
  lines : Nat
  combo : Nat
  lastClearWasTSpin : Bool
  gameOver : Bool
  dropTimer : Nat
  dropInterval : Nat
  lockDelay : Nat
  lockTimer : Nat
  isLocking : Bool
  statsTotalPieces : Nat
  statsTotalLines : Nat
  statsSingles : Nat
  statsDoubles : Nat
  statsTriples : Nat
  statsTetrises : Nat
  statsTSpins : Nat
  statsPerfectClears : Nat

/-- Source `isColliding` against an explicit board and dimensions: a block
collides when it is outside `[0,width) x [0,height)` or the board cell there
is not null. -/
def isCollidingB (board : Board) (width height : Nat) (p : TetrisPiece) : Bool :=
  p.getBlocks.any (fun b =>
    if b.1 < 0 ∨ b.1 ≥ (width : Int) ∨ b.2 < 0 ∨ b.2 ≥ (height : Int) then true
    else ((board.getD b.2.toNat []).getD b.1.toNat none).isSome)

namespace TetrisGameEngine

/-- Source `TetrisGameEngine.isColliding(piece)`. -/
def isColliding (s : TetrisGameEngine) (p : TetrisPiece) : Bool :=
  isCollidingB s.board s.width s.height p

/-- Source `resetLockTimer`. -/
def resetLockTimer (s : TetrisGameEngine) : TetrisGameEngine :=
  { s with lockTimer := 0, isLocking := false }

/-- Source `movePiece(dx, dy)`: translate the current piece, revert (leaving
the state untouched) on collision; on success a purely horizontal move
resets the lock timer. -/
def movePiece (s : TetrisGameEngine) (dx dy : Int) : Bool × TetrisGameEngine :=
  match s.currentPiece with
  | none => (false, s)
  | some p =>
      if s.gameOver then (false, s)
      else
        let p1 : TetrisPiece := { p with x := p.x + dx, y := p.y + dy }
        if s.isColliding p1 then (false, s)
        else
          let s1 := { s with currentPiece := some p1 }
          (true, if dy = 0 then resetLockTimer s1 else s1)

/-- The kick loop of `rotatePiece`: offsets are tried in order; the first
offset whose placement does not collide is applied (the source's add /
test / subtract sequence nets to exactly this). -/
def tryKicks (s : TetrisGameEngine) (p : TetrisPiece) :
    List (Int × Int) → Option TetrisPiece
  | [] => none
  | kd :: rest =>
      let p1 : TetrisPiece := { p with x := p.x + kd.1, y := p.y + kd.2 }
      if s.isColliding p1 then tryKicks s p rest else some p1

/-- Source `rotatePiece(direction)`: the target rotation index is
`(rotation + direction + shape.length) % shape.length` (JS truncated `%`),
then the wall-kick offsets are tried in order; on success the lock timer is
reset, on failure the original state is restored unchanged. -/
def rotatePiece (s : TetrisGameEngine) (direction : Int) :
    Bool × TetrisGameEngine :=
  match s.currentPiece with
  | none => (false, s)
  | some p =>
      if s.gameOver then (false, s)
      else
        let len : Int := (PIECE_SHAPES p.type).length
        let newRotation : Nat :=
          (((p.rotation : Int) + direction + len).tmod len).toNat
        let kicks := getWallKickData p.type p.rotation newRotation
        let pR : TetrisPiece := { p with rotation := newRotation }
        match tryKicks s pR kicks with
        | some p1 => (true, resetLockTimer { s with currentPiece := some p1 })
        | none => (false, s)

/-- Source `isPerfectClear`: every cell of every row is null. -/
def isPerfectClearB (board : Board) : Bool :=
  board.all (fun row => row.all (fun c => c.isNone))

/-- Source `updateLevel`: level is `floor(lines / 10) + 1` and only ever
rises; the drop interval is clamped below at 50. -/
def updateLevel (s : TetrisGameEngine) : TetrisGameEngine :=
  let newLevel := s.lines / 10 + 1
  if newLevel > s.level then
    { s with level := newLevel,
             dropInterval := (max 50 (1000 - ((newLevel : Int) - 1) * 50)).toNat }
  else s

/-- Whether a row is complete: `row.every(cell => cell !== null)`. -/
def rowFull (row : Row) : Bool := row.all (fun c => c.isSome)

/-- The indices of the complete rows, scanned top to bottom as the source
does with `for (let y = 0; y < height; y++)`. -/
def fullRowIndices (board : Board) (height : Nat) : List Nat :=
  (List.range height).filter (fun y => rowFull (board.getD y []))

/-- One iteration of the clearing loop: `splice(row, 1)` then
`unshift(empty row)`. -/
def spliceRow (width : Nat) (board : Board) (row : Nat) : Board :=
  emptyRow width :: board.eraseIdx row

/-- The statistics `switch` of `clearLines`. -/
def bumpClearStats (s : TetrisGameEngine) : Nat → TetrisGameEngine
  | 1 => { s with statsSingles := s.statsSingles + 1 }
  | 2 => { s with statsDoubles := s.statsDoubles + 1 }
  | 3 => { s with statsTriples := s.statsTriples + 1 }
  | 4 => { s with statsTetrises := s.statsTetrises + 1 }
  | _ => s

/-- Source `clearLines`: find the full rows, remove each and push an empty
row on top, bump the counters and combo, update stats and level; with no
full row the combo resets to 0.  Returns the cleared-line count. -/
def clearLines (s : TetrisGameEngine) : Nat × TetrisGameEngine :=
  let fullRows := fullRowIndices s.board s.height
  if fullRows.isEmpty then (0, { s with combo := 0 })
  else
    let bd := fullRows.foldl (spliceRow s.width) s.board
    let k := fullRows.length
    let s1 := { s with board := bd,
                       lines := s.lines + k,
                       statsTotalLines := s.statsTotalLines + k,
                       combo := s.combo + 1 }
    let s2 := bumpClearStats s1 k
    let s3 :=
      if isPerfectClearB s2.board then
        { s2 with statsPerfectClears := s2.statsPerfectClears + 1 }
      else s2
    (k, updateLevel s3)

/-- Source `calculateScore(lines, isTSpin)`: the base table, the combo
bonus, the perfect-clear x10, all multiplied by the current level and added
to the score; also records the T-Spin stats/flag. -/
def calculateScore (s : TetrisGameEngine) (lines : Nat) (isTSpin : Bool) :
    TetrisGameEngine :=
  let s0 :=
    if isTSpin then
      { s with statsTSpins := s.statsTSpins + 1, lastClearWasTSpin := true }
    else { s with lastClearWasTSpin := false }
  let base : Nat :=
    if isTSpin then tSpinScoreTable lines else normalScoreTable lines
  let base1 := if s.combo > 1 then base + 50 * (s.combo - 1) else base
  let base2 := if isPerfectClearB s.board then base1 * 10 else base1
  { s0 with score := s.score + base2 * s.level }

/-- Write one locked block into the board (bounds-checked as the source's
`lockPiece` forEach is). -/
def setCell (board : Board) (y x : Nat) (c : Cell) : Board :=
  board.set y ((board.getD y []).set x c)

/-- The board after committing the current piece's blocks, each block
in-bounds becoming an occupied cell with the piece's color and type name. -/
def mergeBlocks (board : Board) (width height : Nat) (p : TetrisPiece) : Board :=
  p.getBlocks.foldl (fun bd b =>
    if 0 ≤ b.2 ∧ b.2 < (height : Int) ∧ 0 ≤ b.1 ∧ b.1 < (width : Int) then
      setCell bd b.2.toNat b.1.toNat (some ⟨PIECE_COLORS p.type, typeName p.type⟩)
    else bd) board

/-- Source `spawnNewPiece`: promote `nextPiece`, draw a fresh `nextPiece`,
re-arm hold and the lock timer, count the piece; if the promoted piece
collides the game is over. -/
def spawnNewPiece (s : TetrisGameEngine) : TetrisGameEngine :=
  let d := s.pieceGenerator.getNext s.rng
  let s1 := { s with currentPiece := s.nextPiece,
                     nextPiece := d.1,
                     pieceGenerator := d.2.1,
                     rng := d.2.2,
                     canHold := true,
                     isLocking := false,
                     lockTimer := 0,
                     statsTotalPieces := s.statsTotalPieces + 1 }
  match s1.currentPiece with
  | some p => if s1.isColliding p then { s1 with gameOver := true } else s1
  | none => s1

/-- Source `lockPiece`: commit the blocks, detect a T-Spin on the merged
board, clear lines, score, and spawn the next piece.  There is no
`gameOver` guard — only a null-piece guard. -/
def lockPiece (s : TetrisGameEngine) : TetrisGameEngine :=
  match s.currentPiece with
  | none => s
  | some p =>
      let bd := mergeBlocks s.board s.width s.height p
      let isT := p.isTSpin bd
      let s1 := { s with board := bd }
      let ks := clearLines s1
      let s3 := calculateScore ks.2 ks.1 isT
      spawnNewPiece s3

/-- Source `update(deltaTime)`: gravity timing, soft-lock start when a
gravity step is blocked, and the forced lock once the lock delay expires. -/
def update (s : TetrisGameEngine) (deltaTime : Nat) : TetrisGameEngine :=
  if s.gameOver then s
  else
    match s.currentPiece with
    | none => s
    | some _ =>
        let s1 : TetrisGameEngine := { s with dropTimer := s.dropTimer + deltaTime }
        let s2 : TetrisGameEngine :=
          if s1.dropTimer ≥ s1.dropInterval then
            let mv := movePiece s1 0 1
            let sm : TetrisGameEngine :=
              if mv.1 then mv.2
              else if mv.2.isLocking then mv.2
              else { mv.2 with isLocking := true, lockTimer := 0 }
            { sm with dropTimer := 0 }
          else s1
        if s2.isLocking then
          let s3 : TetrisGameEngine := { s2 with lockTimer := s2.lockTimer + deltaTime }
          if s3.lockTimer ≥ s3.lockDelay then lockPiece s3 else s3
        else s2

/-- Source `getAttackLines(lines, isTSpin)`: base attack table, plus
`min(combo - 1, 4)` once the combo exceeds 1, plus 10 on a perfect clear. -/
def getAttackLines (s : TetrisGameEngine) (lines : Nat) (isTSpin : Bool) : Nat :=
  let attack : Nat :=
    if isTSpin then tSpinAttackTable lines else normalAttackTable lines
  let attack1 := if s.combo > 1 then attack + min (s.combo - 1) 4 else attack
  if isPerfectClearB s.board then attack1 + 10 else attack1

/-- One garbage row: fully occupied by the garbage cell except the hole. -/
def garbageRow (width hole : Nat) : Row :=
  (List.replicate width (some ⟨"#666666", "garbage"⟩)).set hole none

/-- The garbage-appending loop of `receiveAttack`: each appended row draws
one oracle value for its hole column. -/
def addGarbage : Nat → Nat → Board → Rng → Board × Rng
  | 0, _, bd, r => (bd, r)
  | Nat.succ n, width, bd, r =>
      let hr := r.randBelow width
      addGarbage n width (bd ++ [garbageRow width hr.1]) hr.2

/-- Source `receiveAttack(lines)`: nothing for `lines <= 0`; otherwise
`lines` shifts off the top (a shift on an empty array is a no-op, so this is
`drop`), `lines` garbage rows pushed on the bottom, then game over if the
current piece now collides. -/
def receiveAttack (s : TetrisGameEngine) (lines : Int) : TetrisGameEngine :=
  if lines ≤ 0 then s
  else
    let n := lines.toNat
    let gr := addGarbage n s.width (s.board.drop n) s.rng
    let s1 := { s with board := gr.1, rng := gr.2 }
    match s1.currentPiece with
    | some p => if s1.isColliding p then { s1 with gameOver := true } else s1
    | none => s1

/-- Source method `holdPiece()` (named `holdSwap` here because the class
also stores the held piece under the same name).  With a piece already held
it swaps the two types, respawning the swapped-in piece at
`floor(width / 2) - 2, 0` with no collision check; with nothing held it
stashes the current type and spawns the next piece; either way `canHold`
ends up false and the call reports success. -/
def holdSwap (s : TetrisGameEngine) : Bool × TetrisGameEngine :=
  if ¬ s.canHold then (false, s)
  else
    match s.currentPiece with
    | none => (false, s)
    | some p =>
        if s.gameOver then (false, s)
        else
          match s.holdPiece with
          | some h =>
              let newCur : TetrisPiece :=
                { newPiece h.type with x := ((s.width / 2 : Nat) : Int) - 2, y := 0 }
              (true, { s with holdPiece := some (newPiece p.type),
                              currentPiece := some newCur,
                              canHold := false })
          | none =>
              let s1 := spawnNewPiece { s with holdPiece := some (newPiece p.type) }
              (true, { s1 with canHold := false })

/-- The distance loop of `hardDrop`, with explicit fuel standing for the
loop's (actual) termination: repeated `movePiece(0, 1)` counting steps. -/
def hardDropAux : Nat → TetrisGameEngine → Nat → Nat × TetrisGameEngine
  | 0, s, dist => (dist, s)
  | Nat.succ f, s, dist =>
      let mv := movePiece s 0 1
      if mv.1 then hardDropAux f mv.2 (dist + 1) else (dist, mv.2)

/-- Source `hardDrop`: drop to the floor, lock, and add twice the dropped
distance to the score.  Fuel `height + 8` bounds the drop strictly above
any possible fall distance from a non-colliding position. -/
def hardDrop (s : TetrisGameEngine) : Nat × TetrisGameEngine :=
  match s.currentPiece with
  | none => (0, s)
  | some _ =>
      if s.gameOver then (0, s)
      else
        let dd := hardDropAux (s.height + 8) s 0
        let s1 := lockPiece dd.2
        (dd.1, { s1 with score := s1.score + dd.1 * 2 })

end TetrisGameEngine

/-- AIPlayer `countClearedLines`: rows where every cell is non-null. -/
def countClearedLines (board : Board) : Nat :=
  (board.filter (fun row => TetrisGameEngine.rowFull row)).length

/-- AIPlayer `removeClearedLines`: drop the full rows, then unshift empty
rows until the board regains `height` rows. -/
def removeClearedLines (width height : Nat) (board : Board) : Board :=
  let nb := board.filter (fun row => ! TetrisGameEngine.rowFull row)
  List.replicate (height - nb.length) (emptyRow width) ++ nb

/-- AIPlayer `getMaxHeight`: `length - index` of the topmost row with any
occupied cell, 0 on an empty board. -/
def getMaxHeight (board : Board) : Nat :=
  match board.findIdx? (fun row => row.any (fun c => c.isSome)) with
  | some y => board.length - y
  | none => 0

/-- The column scan of AIPlayer `countHoles` for one column: empty cells
below the first occupied cell of the column. -/
def countHolesCol (board : Board) (height x : Nat) : Nat :=
  ((List.range height).foldl (fun (acc : Nat × Bool) y =>
    if ((board.getD y []).getD x none).isSome then (acc.1, true)
    else if acc.2 then (acc.1 + 1, true) else acc) (0, false)).1

/-- AIPlayer `countHoles`: summed over all columns. -/
def countHoles (width height : Nat) (board : Board) : Nat :=
  ((List.range width).map (fun x => countHolesCol board height x)).sum

/-- The per-column height AIPlayer computes in `getBumpiness` and
`getAggregateHeight`: `height - y` for the topmost occupied `y`, else 0. -/
def columnHeight (board : Board) (height x : Nat) : Nat :=
  match (List.range height).find? (fun y =>
      ((board.getD y []).getD x none).isSome) with
  | some y => height - y
  | none => 0

/-- AIPlayer `getBumpiness`: sum of adjacent column height differences. -/
def getBumpiness (width height : Nat) (board : Board) : Nat :=
  let heights := (List.range width).map (fun x => columnHeight board height x)
  ((List.range (width - 1)).map (fun i =>
    ((heights.getD i 0 : Int) - (heights.getD (i + 1) 0 : Int)).natAbs)).sum

/-- AIPlayer `getAggregateHeight`: total of the column heights. -/
def getAggregateHeight (width height : Nat) (board : Board) : Nat :=
  ((List.range width).map (fun x => columnHeight board height x)).sum

/-- One AI difficulty profile's heuristic weights (floats in the source,
embedded as rationals; their values play no role in the frame result). -/
structure AIParams where
  heightWeight : Rat
  linesWeight : Rat
  holesWeight : Rat
  bumpinessWeight : Rat
  aggregateHeightWeight : Rat

/-- A heap of JS row arrays and piece objects, addressed by allocation
order.  The AI's board is a list of row references and its current piece a
piece reference, so the embedding can state which objects a search call is
allowed to write: only ones it allocated itself. -/
structure AIHeap where
  rows : Nat → Row
  pieces : Nat → TetrisPiece
  next : Nat

/-- Allocate a fresh row object (e.g. the `[...row]` copies and the
unshifted empty rows). -/
def allocRow (h : AIHeap) (row : Row) : Nat × AIHeap :=
  (h.next, ⟨fun n => if n = h.next then row else h.rows n, h.pieces, h.next + 1⟩)

/-- Overwrite the row object behind a reference (an element assignment). -/
def writeRow (h : AIHeap) (r : Nat) (row : Row) : AIHeap :=
  ⟨fun n => if n = r then row else h.rows n, h.pieces, h.next⟩

/-- Allocate a fresh piece object (the `clone()` result). -/
def allocPiece (h : AIHeap) (p : TetrisPiece) : Nat × AIHeap :=
  (h.next, ⟨h.rows, fun n => if n = h.next then p else h.pieces n, h.next + 1⟩)

/-- Overwrite the piece object behind a reference (field assignments). -/
def writePiece (h : AIHeap) (r : Nat) (p : TetrisPiece) : AIHeap :=
  ⟨h.rows, fun n => if n = r then p else h.pieces n, h.next⟩

/-- The game-engine state as the AI sees it through the heap: board rows
and the live current piece are references into the heap. -/
structure EngineView where
  width : Nat
  height : Nat
  boardRefs : List Nat
  currentPieceRef : Option Nat

/-- The live board's contents read through its row references. -/
def refBoard (h : AIHeap) (e : EngineView) : Board := e.boardRefs.map h.rows

/-- `this.gameEngine.board.map(row => [...row])`: fresh copies of every row,
returning the fresh references in board order. -/
def allocRowsCopy : AIHeap → List Nat → List Nat × AIHeap
  | h, [] => ([], h)
  | h, r :: rest =>
      let a := allocRow h (h.rows r)
      let b := allocRowsCopy a.2 rest
      (a.1 :: b.1, b.2)

/-- The `blocks.forEach` of `evaluatePosition`: write each in-bounds block
into the temporary board through its row references. -/
def writeBlocks (width height : Nat) (cv : Cell) (tempRefs : List Nat) :
    AIHeap → List (Int × Int) → AIHeap
  | h, [] => h
  | h, b :: rest =>
      let h1 :=
        if 0 ≤ b.2 ∧ b.2 < (height : Int) ∧ 0 ≤ b.1 ∧ b.1 < (width : Int) then
          match tempRefs.get? b.2.toNat with
          | some r => writeRow h r ((h.rows r).set b.1.toNat cv)
          | none => h
        else h
      writeBlocks width height cv tempRefs h1 rest

/-- The unshift loop of the AI's `removeClearedLines`: allocate `n` fresh
empty rows in front. -/
def padRefs : AIHeap → Nat → Nat → List Nat → List Nat × AIHeap
  | h, _, 0, refs => (refs, h)
  | h, w, Nat.succ n, refs =>
      let a := allocRow h (emptyRow w)
      padRefs a.2 w n (a.1 :: refs)

/-- AIPlayer `removeClearedLines` on the temporary board: `filter` keeps
the surviving row references, the unshifted empty rows are fresh. -/
def removeClearedRefs (h : AIHeap) (width height : Nat) (refs : List Nat) :
    List Nat × AIHeap :=
  let kept := refs.filter (fun r => ! TetrisGameEngine.rowFull (h.rows r))
  padRefs h width (height - kept.length) kept

/-- AIPlayer `evaluatePosition(piece)` with the piece behind `tref`: place
the blocks into row copies, count and remove cleared rows, score the four
surface metrics plus the T-Spin and perfect-clear bonuses.  The live board
is only ever read (`refBoard`), all writes go through `tempRefs`. -/
def evaluatePositionH (params : AIParams) (h : AIHeap) (tref : Nat)
    (e : EngineView) : Rat × AIHeap :=
  let tc := allocRowsCopy h e.boardRefs
  let piece := tc.2.pieces tref
  let h2 := writeBlocks e.width e.height
    (some ⟨PIECE_COLORS piece.type, typeName piece.type⟩) tc.1
    tc.2 piece.getBlocks
  let clearedLines := countClearedLines (tc.1.map h2.rows)
  let rc := removeClearedRefs h2 e.width e.height tc.1
  let afterBoard := rc.1.map rc.2.rows
  let height := getMaxHeight afterBoard
  let holes := countHoles e.width e.height afterBoard
  let bumpiness := getBumpiness e.width e.height afterBoard
  let aggregateHeight := getAggregateHeight e.width e.height afterBoard
  let score : Rat :=
    params.linesWeight * clearedLines * clearedLines
      + params.heightWeight * height
      + params.holesWeight * holes
      + params.bumpinessWeight * bumpiness
      + params.aggregateHeightWeight * aggregateHeight
  let p2 := rc.2.pieces tref
  let score1 :=
    if p2.type = PieceType.T ∧ p2.isTSpin (refBoard rc.2 e) then score + 100
    else score
  let score2 := if TetrisGameEngine.isPerfectClearB afterBoard then score1 + 1000 else score1
  (score2, rc.2)

/-- One move candidate of `findBestMove` (the returned `bestMove`). -/
structure MoveCand where
  x : Int
  y : Int
  rotation : Nat
  score : Rat

/-- The drop probe of `findBestMove`: `testPiece.y++` while not colliding
(fuel-bounded; the fuel exceeds any possible fall). -/
def dropLoopH : Nat → AIHeap → Nat → EngineView → AIHeap
  | 0, h, _, _ => h
  | Nat.succ f, h, tref, e =>
      let p := h.pieces tref
      if isCollidingB (refBoard h e) e.width e.height p then h
      else dropLoopH f (writePiece h tref { p with y := p.y + 1 }) tref e

/-- The horizontal candidate columns `-2 .. width + 1` in loop order. -/
def xCandidates (width : Nat) : List Int :=
  (List.range (width + 4)).map (fun i => (i : Int) - 2)

/-- `findBestMove`'s best-move tracking: a candidate replaces the best so
far exactly when its score is strictly greater (ties keep the first). -/
def updateBest (best : Option MoveCand) (cand : MoveCand) : Option MoveCand :=
  match best with
  | none => some cand
  | some bm => if cand.score > bm.score then some cand else some bm

/-- One iteration of `findBestMove`'s nested loops: clone the live piece,
set rotation and column, probe the drop, back up one step, discard a
colliding placement, otherwise evaluate and keep a strictly better score. -/
def tryCandidate (params : AIParams) (e : EngineView) (rot : Nat) (x : Int)
    (acc : Option MoveCand × AIHeap) : Option MoveCand × AIHeap :=
  match e.currentPieceRef with
  | none => acc
  | some cref =>
      let h := acc.2
      let a := allocPiece h (h.pieces cref)
      let tref := a.1
      let h1 := writePiece a.2 tref
        { a.2.pieces tref with rotation := rot, x := x, y := 0 }
      let h2 := dropLoopH (e.height + 8) h1 tref e
      let p2 := h2.pieces tref
      let h3 := writePiece h2 tref { p2 with y := p2.y - 1 }
      let p3 := h3.pieces tref
      if isCollidingB (refBoard h3 e) e.width e.height p3 then (acc.1, h3)
      else
        let ev := evaluatePositionH params h3 tref e
        (updateBest acc.1 ⟨p3.x, p3.y, rot, ev.1⟩, ev.2)

/-- AIPlayer `findBestMove`: all rotations (outer) times all columns
(inner), tracking the maximum-scoring valid placement; ties keep the first
maximum.  Returns `null` when the engine has no current piece. -/
def findBestMoveH (params : AIParams) (h : AIHeap) (e : EngineView) :
    Option MoveCand × AIHeap :=
  match e.currentPieceRef with
  | none => (none, h)
  | some cref =>
      let numRots := (PIECE_SHAPES (h.pieces cref).type).length
      ((List.range numRots).flatMap (fun rot =>
        (xCandidates e.width).map (fun x => (rot, x)))).foldl
        (fun acc rx => tryCandidate params e rx.1 rx.2 acc) (none, h)

/-- The rotation phase of AIPlayer `executeBestMove`, with fuel standing
for the number of loop iterations the driver would ever let it run:
`while (currentPiece.rotation !== move.rotation) rotatePiece(1)`.  `none`
means the loop is still running after `fuel` iterations. -/
def rotateLoop : Nat → TetrisGameEngine → Nat → Option TetrisGameEngine
  | 0, _, _ => none
  | Nat.succ f, s, target =>
      match s.currentPiece with
      | none => none
      | some p =>
          if p.rotation = target then some s
          else rotateLoop f (TetrisGameEngine.rotatePiece s 1).2 target

/-- AIPlayer `executeBestMove(move)`: rotate to the target rotation (the
while loop above), translate horizontally in one `movePiece` call, then
hard-drop.  `none` reports a rotation loop that did not finish in `fuel`
iterations. -/
def executeBestMove (fuel : Nat) (s : TetrisGameEngine) (move : MoveCand) :
    Option TetrisGameEngine :=
  match s.currentPiece with
  | none => some s
  | some _ =>
      match rotateLoop fuel s move.rotation with
      | none => none
      | some s1 =>
          match s1.currentPiece with
          | none => some s1
          | some p1 =>
              let dx := move.x - p1.x
              let s2 :=
                if dx ≠ 0 then (TetrisGameEngine.movePiece s1 dx 0).2 else s1
              some (TetrisGameEngine.hardDrop s2).2

/-- A baseline concrete engine state (10x20, empty board, T current piece,
I next, a one-piece generator bag, the all-zero oracle) used by the
concrete witnesses below. -/
def baseEngine : TetrisGameEngine :=
  { width := 10, height := 20, board := createEmptyBoard 10 20,
    currentPiece := some (newPiece PieceType.T),
    nextPiece := some (newPiece PieceType.I),
    holdPiece := none, canHold := true,
    pieceGenerator := ⟨[PieceType.O]⟩, rng := ⟨fun _ => 0, 0⟩,
    score := 0, level := 1, lines := 0, combo := 0,
    lastClearWasTSpin := false, gameOver := false,
    dropTimer := 0, dropInterval := 1000, lockDelay := 500, lockTimer := 0,
    isLocking := false, statsTotalPieces := 0, statsTotalLines := 0,
    statsSingles := 0, statsDoubles := 0, statsTriples := 0,
    statsTetrises := 0, statsTSpins := 0, statsPerfectClears := 0 }

/-- The two operations that C1's game-over sentence quantifies over and
that the code does guard: `update(dt)` and `movePiece(dx, dy)`. -/
inductive GuardedOp where
  | updateOp (dt : Nat)
  | moveOp (dx dy : Int)

/-- Run one guarded operation, keeping the state component. -/
def applyGuardedOp (s : TetrisGameEngine) : GuardedOp → TetrisGameEngine
  | GuardedOp.updateOp dt => s.update dt
  | GuardedOp.moveOp dx dy => (s.movePiece dx dy).2

/-- Run a sequence of guarded operations in order. -/
def applyGuardedOps (s : TetrisGameEngine) (ops : List GuardedOp) :
    TetrisGameEngine :=
  ops.foldl applyGuardedOp s

/-- Number of occupied cells of a row. -/
def occupiedCount (row : Row) : Nat := (row.filter (fun c => c.isSome)).length

/-- Number of empty cells of a row. -/
def emptyCount (row : Row) : Nat := (row.filter (fun c => c.isNone)).length

/-- A piece moved by a wall-kick offset. -/
def kickApplied (p : TetrisPiece) (kd : Int × Int) : TetrisPiece :=
  { p with x := p.x + kd.1, y := p.y + kd.2 }

/-- The rotation index `rotatePiece(direction)` targets:
`(rotation + direction + shape.length) % shape.length` with JS truncated
division. -/
def targetRotation (p : TetrisPiece) (direction : Int) : Nat :=
  (((p.rotation : Int) + direction +
      ((PIECE_SHAPES p.type).length : Int)).tmod
    ((PIECE_SHAPES p.type).length : Int)).toNat

/-- The generator of C7's refill-divergence counterexample: a bag holding a
single I piece. -/
def c7Gen : PieceGenerator := ⟨[PieceType.I]⟩

/-- The oracle of C7's counterexample: the six values `preview`'s refill
shuffle consumes are all 0, the six the real refill then consumes are 1. -/
def c7Rng : Rng := ⟨fun k => if k < 6 then 0 else 1, 0⟩

/-- C8's board: every cell occupied except the four cells of the spawned T
piece itself, so every wall-kick placement of any rotation collides. -/
def c8Board : Board :=
  (List.range 20).map (fun y => (List.range 10).map (fun x =>
    if (x = 4 ∧ y = 1) ∨ (x = 3 ∧ y = 2) ∨ (x = 4 ∧ y = 2) ∨ (x = 5 ∧ y = 2)
    then none
    else some ⟨"#666666", "garbage"⟩))

/-- C8's engine state: the boxed-in T piece at spawn on `c8Board`, game
still running. -/
def c8State : TetrisGameEngine := { baseEngine with board := c8Board }

/-- The successful-rotation result state: the rotated piece installed and
the lock timer reset. -/
def rotateSuccState (s : TetrisGameEngine) (p1 : TetrisPiece) : TetrisGameEngine :=
  TetrisGameEngine.resetLockTimer { s with currentPiece := some p1 }

/-- C3's witness board: bottom row full except columns 3..5, all else
empty. -/
def c3Board : Board :=
  (List.range 20).map (fun y => (List.range 10).map (fun x =>
    if y = 19 ∧ ¬ (x = 3 ∨ x = 4 ∨ x = 5) then some ⟨"#666666", "garbage"⟩
    else none))

/-- C3's witness state: a T piece about to fill the bottom row's gap. -/
def c3State : TetrisGameEngine :=
  { baseEngine with
      board := c3Board,
      currentPiece := some ⟨PieceType.T, 3, 17, 0⟩ }

/-- C10's witness state: a piece already held and a board cell where the
swapped-in piece will respawn. -/
def c10State : TetrisGameEngine :=
  { baseEngine with
      holdPiece := some (newPiece PieceType.I),
      board := TetrisGameEngine.setCell (createEmptyBoard 10 20) 1 3
        (some ⟨"#666666", "garbage"⟩) }

/-- Heap references below `m` are untouched: the frame predicate of the
move search.  It also records that the allocation frontier never moves
backwards past `m`. -/
def PreservedBelow (m : Nat) (h h2 : AIHeap) : Prop :=
  m ≤ h2.next ∧ ∀ n, n < m → h2.rows n = h.rows n ∧ h2.pieces n = h.pieces n

/-- C9's witness heap: four empty rows and an O piece behind reference 4. -/
def c9Heap : AIHeap :=
  ⟨fun _ => List.replicate 4 none, fun _ => newPiece PieceType.O, 5⟩

/-- C9's witness engine view: a 4x4 board whose rows are references
0..3, current piece behind reference 4. -/
def c9View : EngineView := ⟨4, 4, [0, 1, 2, 3], some 4⟩

/-- C9's witness difficulty profile (the medium weights). -/
def c9Params : AIParams := ⟨-0.7, 1.0, -0.5, -0.2, -0.2⟩

/-- C5: `getAttackLines(lines, wasSpecialSpin)` returns the lookup value
0/1/2/4 for 1/2/3/4-line normal clears and 0/2/4/6 for 0/1/2/3-line
special-spin clears, plus `min(combo - 1, 4)` extra lines when the combo
counter exceeds 1, plus 10 when the board is entirely empty; in particular
(no combo, board not empty) `getAttackLines 4 false = 4` and
`getAttackLines 1 true = 2`. -/
theorem C5_getAttackLines_spec (s : TetrisGameEngine) (lines : Nat)
    (wasSpecialSpin : Bool) :
    s.getAttackLines lines wasSpecialSpin =
      (if wasSpecialSpin then
        (if lines = 0 then 0 else if lines = 1 then 2
         else if lines = 2 then 4 else if lines = 3 then 6 else 0)
      else
        (if lines = 1 then 0 else if lines = 2 then 1
         else if lines = 3 then 2 else if lines = 4 then 4 else 0))
      + (if 1 < s.combo then min (s.combo - 1) 4 else 0)
      + (if TetrisGameEngine.isPerfectClearB s.board then 10 else 0)
    ∧ (s.combo ≤ 1 → TetrisGameEngine.isPerfectClearB s.board = false →
        s.getAttackLines 4 false = 4 ∧ s.getAttackLines 1 true = 2) := by
  have key : ∀ (ls : Nat) (sp : Bool), s.getAttackLines ls sp =
      (if sp then
        (if ls = 0 then 0 else if ls = 1 then 2
         else if ls = 2 then 4 else if ls = 3 then 6 else 0)
      else
        (if ls = 1 then 0 else if ls = 2 then 1
         else if ls = 3 then 2 else if ls = 4 then 4 else 0))
      + (if 1 < s.combo then min (s.combo - 1) 4 else 0)
      + (if TetrisGameEngine.isPerfectClearB s.board then 10 else 0) := by
    intro ls sp
    have hts : tSpinAttackTable ls =
        (if ls = 0 then 0 else if ls = 1 then 2
         else if ls = 2 then 4 else if ls = 3 then 6 else 0) := by
      rcases ls with _ | _ | _ | _ | n <;> rfl
    have hns : normalAttackTable ls =
        (if ls = 1 then 0 else if ls = 2 then 1
         else if ls = 3 then 2 else if ls = 4 then 4 else 0) := by
      rcases ls with _ | _ | _ | _ | _ | n <;> rfl
    unfold TetrisGameEngine.getAttackLines
    dsimp only
    rw [hts, hns]
    split_ifs <;> omega
  refine ⟨key lines wasSpecialSpin, fun hcombo hpc => ⟨?_, ?_⟩⟩
  · rw [key 4 false]
    simp [hpc]
    omega
  · rw [key 1 true]
    simp [hpc]
    omega

/-- C5 witness: the formula and the two particular values at a concrete
engine state with combo 1 and a non-empty single-cell board. -/
theorem C5_witness :
    (let s : TetrisGameEngine :=
      { width := 1, height := 1, board := [[some ⟨"#00ffff", "I"⟩]],
        currentPiece := none, nextPiece := none, holdPiece := none,
        canHold := true, pieceGenerator := ⟨[]⟩, rng := ⟨fun _ => 0, 0⟩,
        score := 0, level := 1, lines := 0, combo := 1,
        lastClearWasTSpin := false, gameOver := false, dropTimer := 0,
        dropInterval := 1000, lockDelay := 500, lockTimer := 0,
        isLocking := false, statsTotalPieces := 0, statsTotalLines := 0,
        statsSingles := 0, statsDoubles := 0, statsTriples := 0,
        statsTetrises := 0, statsTSpins := 0, statsPerfectClears := 0 }
     s.getAttackLines 4 false = 4 ∧ s.getAttackLines 1 true = 2) := by
  exact (C5_getAttackLines_spec _ 4 false).2 (by decide) (by decide)

/-- C6: a lock clearing `lines` rows adds `base * level` to the score,
where base is 100/300/500/800 for normal 1/2/3/4 and 400/800/1200/1600 for
special-spin 0/1/2/3, plus `50 * (combo - 1)` when combo > 1, the whole
base multiplied by 10 on a perfect clear; in particular a non-special-spin
lock clearing 4 rows at level 1 and combo <= 1 (no perfect clear) adds
exactly the base 800. -/
theorem C6_calculateScore_spec (s : TetrisGameEngine) (lines : Nat)
    (isTSpin : Bool) :
    (s.calculateScore lines isTSpin).score =
      s.score +
        ((if isTSpin then
            (if lines = 0 then 400 else if lines = 1 then 800
             else if lines = 2 then 1200 else if lines = 3 then 1600 else 0)
          else
            (if lines = 1 then 100 else if lines = 2 then 300
             else if lines = 3 then 500 else if lines = 4 then 800 else 0))
          + (if 1 < s.combo then 50 * (s.combo - 1) else 0))
        * (if TetrisGameEngine.isPerfectClearB s.board then 10 else 1) * s.level
    ∧ (lines = 4 → isTSpin = false → s.level = 1 → s.combo ≤ 1 →
        TetrisGameEngine.isPerfectClearB s.board = false →
        (s.calculateScore lines isTSpin).score = s.score + 800) := by
  have key : ∀ (ls : Nat) (sp : Bool), (s.calculateScore ls sp).score =
      s.score +
        ((if sp then
            (if ls = 0 then 400 else if ls = 1 then 800
             else if ls = 2 then 1200 else if ls = 3 then 1600 else 0)
          else
            (if ls = 1 then 100 else if ls = 2 then 300
             else if ls = 3 then 500 else if ls = 4 then 800 else 0))
          + (if 1 < s.combo then 50 * (s.combo - 1) else 0))
        * (if TetrisGameEngine.isPerfectClearB s.board then 10 else 1)
        * s.level := by
    intro ls sp
    have hts : tSpinScoreTable ls =
        (if ls = 0 then 400 else if ls = 1 then 800
         else if ls = 2 then 1200 else if ls = 3 then 1600 else 0) := by
      rcases ls with _ | _ | _ | _ | n <;> rfl
    have hns : normalScoreTable ls =
        (if ls = 1 then 100 else if ls = 2 then 300
         else if ls = 3 then 500 else if ls = 4 then 800 else 0) := by
      rcases ls with _ | _ | _ | _ | _ | n <;> rfl
    unfold TetrisGameEngine.calculateScore
    dsimp only
    rw [hts, hns]
    split_ifs <;> ring
  refine ⟨key lines isTSpin, fun h4 hsp hlev hcombo hpc => ?_⟩
  subst h4 hsp
  rw [key 4 false]
  have hc : ¬ 1 < s.combo := by omega
  simp [hpc, hc, hlev]

/-- C6 witness: at the baseline state with one occupied cell, score 123,
level 1, combo 0, a non-spin 4-line lock scores exactly 800 more. -/
theorem C6_witness :
    ({ baseEngine with
        score := 123,
        board := TetrisGameEngine.setCell (createEmptyBoard 10 20) 19 0
          (some ⟨"#00ffff", "I"⟩) }.calculateScore 4 false).score = 123 + 800 :=
  (C6_calculateScore_spec _ 4 false).2 rfl rfl rfl (by decide) (by decide)

/-- The kick loop of `rotatePiece` applies exactly the first listed offset
whose placement does not collide. -/
theorem tryKicks_eq_find (s : TetrisGameEngine) (p : TetrisPiece)
    (l : List (Int × Int)) :
    TetrisGameEngine.tryKicks s p l =
      (l.find? (fun kd => ! s.isColliding (kickApplied p kd))).map
        (kickApplied p) := by
  induction l with
  | nil => rfl
  | cons kd rest ih =>
      show (if s.isColliding (kickApplied p kd) then
              TetrisGameEngine.tryKicks s p rest
            else some (kickApplied p kd)) =
          Option.map (kickApplied p)
            (List.find? (fun k => ! s.isColliding (kickApplied p k)) (kd :: rest))
      rw [List.find?_cons]
      cases hcol : s.isColliding (kickApplied p kd)
      · simp [hcol]
      · simp [hcol, ih]

/-- C2: `rotatePiece(direction)` targets the rotation index congruent to
`rotation + direction` modulo the piece's rotation count, tries the
wall-kick offsets in order starting with `(0,0)`, applies the first offset
that yields a non-colliding placement and returns true; if every offset
fails it returns false and the whole engine state — in particular the
piece's rotation, x and y — is unchanged. -/
theorem C2_rotatePiece_spec (s : TetrisGameEngine) (direction : Int)
    (p : TetrisPiece) (hp : s.currentPiece = some p) (hg : s.gameOver = false)
    (hd : direction = 1 ∨ direction = -1) :
    (getWallKickData p.type p.rotation (targetRotation p direction)).head? =
        some (0, 0)
    ∧ targetRotation p direction =
        ((((p.rotation : Int) + direction) %
          ((PIECE_SHAPES p.type).length : Int)).toNat)
    ∧ (match (getWallKickData p.type p.rotation
          (targetRotation p direction)).find?
          (fun kd => ! s.isColliding
            (kickApplied { p with rotation := targetRotation p direction } kd))
        with
       | some kd =>
          s.rotatePiece direction =
            (true, rotateSuccState s
              (kickApplied { p with rotation := targetRotation p direction } kd))
       | none => s.rotatePiece direction = (false, s)) := by
  refine ⟨?_, ?_, ?_⟩
  · unfold getWallKickData
    split_ifs <;> rfl
  · have hlen : ((PIECE_SHAPES p.type).length : Int) = 4 ∨
        ((PIECE_SHAPES p.type).length : Int) = 1 := by
      cases p.type <;> simp [PIECE_SHAPES]
    unfold targetRotation
    rcases hlen with h | h <;> rw [h] <;> rcases hd with hd | hd <;> subst hd <;>
      rw [Int.tmod_eq_emod (by omega) (by norm_num)] <;> omega
  · have hrot : s.rotatePiece direction =
        (match TetrisGameEngine.tryKicks s
            { p with rotation := targetRotation p direction }
            (getWallKickData p.type p.rotation (targetRotation p direction))
          with
         | some p1 => (true, rotateSuccState s p1)
         | none => (false, s)) := by
      unfold TetrisGameEngine.rotatePiece
      rw [hp]
      dsimp only
      rw [if_neg (by simp [hg])]
      rfl
    rw [hrot, tryKicks_eq_find]
    cases hfind : (getWallKickData p.type p.rotation
        (targetRotation p direction)).find?
        (fun kd => ! s.isColliding
          (kickApplied { p with rotation := targetRotation p direction } kd))
    · rfl
    · rfl

/-- C2 witness: at the baseline state (empty board, T piece at spawn) a
clockwise rotation succeeds through the first `(0,0)` offset. -/
theorem C2_witness :
    (getWallKickData (newPiece PieceType.T).type (newPiece PieceType.T).rotation
        (targetRotation (newPiece PieceType.T) 1)).head? = some (0, 0)
    ∧ targetRotation (newPiece PieceType.T) 1 =
        ((((newPiece PieceType.T).rotation : Int) + 1) %
          ((PIECE_SHAPES (newPiece PieceType.T).type).length : Int)).toNat
    ∧ (match (getWallKickData (newPiece PieceType.T).type
          (newPiece PieceType.T).rotation
          (targetRotation (newPiece PieceType.T) 1)).find?
          (fun kd => ! baseEngine.isColliding
            (kickApplied
              { newPiece PieceType.T with
                  rotation := targetRotation (newPiece PieceType.T) 1 } kd))
        with
       | some kd =>
          baseEngine.rotatePiece 1 =
            (true, rotateSuccState baseEngine
              (kickApplied
                { newPiece PieceType.T with
                    rotation := targetRotation (newPiece PieceType.T) 1 } kd))
       | none => baseEngine.rotatePiece 1 = (false, baseEngine)) :=
  C2_rotatePiece_spec baseEngine 1 (newPiece PieceType.T) rfl rfl (Or.inl rfl)

/-- `update` is the identity once the game is over. -/
theorem update_gameOver (s : TetrisGameEngine) (dt : Nat)
    (hg : s.gameOver = true) : s.update dt = s := by
  unfold TetrisGameEngine.update
  rw [if_pos hg]

/-- `movePiece` leaves the state untouched once the game is over. -/
theorem movePiece_gameOver (s : TetrisGameEngine) (dx dy : Int)
    (hg : s.gameOver = true) : (s.movePiece dx dy).2 = s := by
  unfold TetrisGameEngine.movePiece
  cases hcp : s.currentPiece
  · rfl
  · dsimp only
    rw [if_pos hg]

/-- C1 (amended): once `gameOver` is true, any sequence of further
`update` and `movePiece` calls leaves the whole engine state — in
particular the board — unchanged.  (`lockPiece` is excluded: it has no
`gameOver` guard, see the counterexample.) -/
theorem C1_after_gameOver (s : TetrisGameEngine) (hg : s.gameOver = true)
    (ops : List GuardedOp) : applyGuardedOps s ops = s := by
  induction ops with
  | nil => rfl
  | cons op rest ih =>
      have h1 : applyGuardedOp s op = s := by
        cases op with
        | updateOp dt => exact update_gameOver s dt hg
        | moveOp dx dy => exact movePiece_gameOver s dx dy hg
      show applyGuardedOps (applyGuardedOp s op) rest = s
      rw [h1]
      exact ih

/-- C1 witness: a gravity tick followed by a lateral move leave a
game-over state untouched. -/
theorem C1_witness :
    applyGuardedOps { baseEngine with gameOver := true }
      [GuardedOp.updateOp 16, GuardedOp.moveOp 1 0] =
      { baseEngine with gameOver := true } :=
  C1_after_gameOver _ rfl _

/-- C1 counterexample: the claim as stated is false — with `gameOver` true
and a current piece still set (exactly the state `spawnNewPiece` leaves
behind when it ends the game), a single `lockPiece` call commits the
piece's cells and changes the board. -/
theorem C1_counterexample :
    ({ baseEngine with gameOver := true } : TetrisGameEngine).gameOver = true
    ∧ ({ baseEngine with gameOver := true } : TetrisGameEngine).lockPiece.board ≠
        ({ baseEngine with gameOver := true } : TetrisGameEngine).board := by
  exact ⟨rfl, by decide⟩

/-- A fold whose every step preserves board length preserves it overall. -/
theorem foldl_preserves_length {α : Type} (f : Board → α → Board)
    (hf : ∀ bd a, (f bd a).length = bd.length) :
    ∀ (l : List α) (bd : Board), (l.foldl f bd).length = bd.length := by
  intro l
  induction l with
  | nil => intro bd; rfl
  | cons a rest ih =>
      intro bd
      rw [List.foldl_cons, ih, hf]

/-- Committing a piece's blocks never changes the number of rows. -/
theorem mergeBlocks_length (bd : Board) (w h : Nat) (p : TetrisPiece) :
    (TetrisGameEngine.mergeBlocks bd w h p).length = bd.length := by
  unfold TetrisGameEngine.mergeBlocks
  apply foldl_preserves_length
  intro bd1 b
  split_ifs
  · unfold TetrisGameEngine.setCell
    exact List.length_set ..
  · rfl

/-- Indices of full rows are below the scanned height. -/
theorem fullRowIndices_lt (bd : Board) (h : Nat) :
    ∀ r ∈ TetrisGameEngine.fullRowIndices bd h, r < h := by
  intro r hr
  unfold TetrisGameEngine.fullRowIndices at hr
  exact List.mem_range.mp (List.mem_filter.mp hr).1

/-- Each splice (remove one row, unshift one empty row) at an in-range
index keeps the row count, so the whole clearing fold does. -/
theorem splice_foldl_length (width : Nat) :
    ∀ (rows : List Nat) (bd : Board), (∀ r ∈ rows, r < bd.length) →
      (rows.foldl (TetrisGameEngine.spliceRow width) bd).length = bd.length := by
  intro rows
  induction rows with
  | nil => intro bd _; rfl
  | cons r rest ih =>
      intro bd hmem
      have hr : r < bd.length := hmem r (List.mem_cons_self r rest)
      have hlen : (TetrisGameEngine.spliceRow width bd r).length = bd.length := by
        unfold TetrisGameEngine.spliceRow
        rw [List.length_cons, List.length_eraseIdx_of_lt hr]
        omega
      rw [List.foldl_cons]
      rw [ih (TetrisGameEngine.spliceRow width bd r)
        (fun x hx => by rw [hlen]; exact hmem x (List.mem_cons_of_mem r hx))]
      exact hlen

/-- The stats switch touches no board, line or combo field. -/
theorem bumpClearStats_proj (s : TetrisGameEngine) (k : Nat) :
    (TetrisGameEngine.bumpClearStats s k).board = s.board
    ∧ (TetrisGameEngine.bumpClearStats s k).lines = s.lines
    ∧ (TetrisGameEngine.bumpClearStats s k).combo = s.combo := by
  rcases k with _ | _ | _ | _ | _ | n <;> exact ⟨rfl, rfl, rfl⟩

/-- `updateLevel` touches no board, line or combo field. -/
theorem updateLevel_proj (s : TetrisGameEngine) :
    (s.updateLevel).board = s.board
    ∧ (s.updateLevel).lines = s.lines
    ∧ (s.updateLevel).combo = s.combo := by
  unfold TetrisGameEngine.updateLevel
  dsimp only
  split_ifs <;> exact ⟨rfl, rfl, rfl⟩

/-- `calculateScore` touches no board, line or combo field. -/
theorem calculateScore_proj (s : TetrisGameEngine) (l : Nat) (t : Bool) :
    (s.calculateScore l t).board = s.board
    ∧ (s.calculateScore l t).lines = s.lines
    ∧ (s.calculateScore l t).combo = s.combo := by
  unfold TetrisGameEngine.calculateScore
  dsimp only
  split_ifs <;> exact ⟨rfl, rfl, rfl⟩

/-- `spawnNewPiece` touches no board, line or combo field. -/
theorem spawnNewPiece_proj (s : TetrisGameEngine) :
    (s.spawnNewPiece).board = s.board
    ∧ (s.spawnNewPiece).lines = s.lines
    ∧ (s.spawnNewPiece).combo = s.combo := by
  unfold TetrisGameEngine.spawnNewPiece
  dsimp only
  cases s.nextPiece
  · exact ⟨rfl, rfl, rfl⟩
  · dsimp only
    split_ifs <;> exact ⟨rfl, rfl, rfl⟩

/-- `clearLines` keeps the row count (full rows removed = empty rows
inserted), adds the cleared count to `lines`, and increments the combo on
any clear while resetting it to 0 on a no-clear call. -/
theorem clearLines_spec (s : TetrisGameEngine) (hb : s.board.length = s.height) :
    (s.clearLines).1 = (TetrisGameEngine.fullRowIndices s.board s.height).length
    ∧ (s.clearLines).2.board.length = s.board.length
    ∧ (s.clearLines).2.lines = s.lines + (s.clearLines).1
    ∧ (s.clearLines).2.combo = (if (s.clearLines).1 = 0 then 0 else s.combo + 1) := by
  unfold TetrisGameEngine.clearLines
  dsimp only
  cases hempty : (TetrisGameEngine.fullRowIndices s.board s.height).isEmpty
  · rw [if_neg (by simp [hempty])]
    have hlen : ((TetrisGameEngine.fullRowIndices s.board s.height).foldl
        (TetrisGameEngine.spliceRow s.width) s.board).length = s.board.length := by
      apply splice_foldl_length
      intro r hr
      rw [hb]
      exact fullRowIndices_lt s.board s.height r hr
    have hne : (TetrisGameEngine.fullRowIndices s.board s.height).length ≠ 0 := by
      simpa [List.isEmpty_iff_length_eq_zero] using hempty
    obtain ⟨hbb, hbl, hbc⟩ := bumpClearStats_proj
      { s with
          board := (TetrisGameEngine.fullRowIndices s.board s.height).foldl
            (TetrisGameEngine.spliceRow s.width) s.board,
          lines := s.lines + (TetrisGameEngine.fullRowIndices s.board s.height).length,
          statsTotalLines := s.statsTotalLines +
            (TetrisGameEngine.fullRowIndices s.board s.height).length,
          combo := s.combo + 1 }
      (TetrisGameEngine.fullRowIndices s.board s.height).length
    refine ⟨rfl, ?_, ?_, ?_⟩ <;>
      · dsimp only
        split_ifs <;>
          simp_all [updateLevel_proj, bumpClearStats_proj, hlen, hne]
  · rw [if_pos (by simp [hempty])]
    have h0 : (TetrisGameEngine.fullRowIndices s.board s.height).length = 0 := by
      simpa [List.isEmpty_iff_length_eq_zero] using hempty
    exact ⟨h0.symm ▸ rfl, rfl, by simp [h0], by simp [h0]⟩

/-- C3: locking a piece that completes exactly k full rows keeps the board
height constant (k rows removed, k empty rows inserted at the top), adds
exactly k to the lines counter, increments the combo when k >= 1 and
resets it to 0 when k = 0. -/
theorem C3_lockPiece_lineClear (s : TetrisGameEngine) (p : TetrisPiece)
    (hp : s.currentPiece = some p) (hb : s.board.length = s.height) :
    (s.lockPiece).board.length = s.height
    ∧ (s.lockPiece).lines = s.lines +
        (TetrisGameEngine.fullRowIndices
          (TetrisGameEngine.mergeBlocks s.board s.width s.height p)
          s.height).length
    ∧ (s.lockPiece).combo =
        (if (TetrisGameEngine.fullRowIndices
              (TetrisGameEngine.mergeBlocks s.board s.width s.height p)
              s.height).length = 0
         then 0 else s.combo + 1) := by
  have hlock : s.lockPiece =
      TetrisGameEngine.spawnNewPiece
        (TetrisGameEngine.calculateScore
          (TetrisGameEngine.clearLines
            { s with board :=
                TetrisGameEngine.mergeBlocks s.board s.width s.height p }).2
          (TetrisGameEngine.clearLines
            { s with board :=
                TetrisGameEngine.mergeBlocks s.board s.width s.height p }).1
          (p.isTSpin (TetrisGameEngine.mergeBlocks s.board s.width s.height p))) := by
    unfold TetrisGameEngine.lockPiece
    rw [hp]
  obtain ⟨hk, hlen2, hlines2, hcombo2⟩ := clearLines_spec
    { s with board := TetrisGameEngine.mergeBlocks s.board s.width s.height p }
    (by
      show (TetrisGameEngine.mergeBlocks s.board s.width s.height p).length = s.height
      rw [mergeBlocks_length]
      exact hb)
  obtain ⟨hcb, hcl, hcc⟩ := calculateScore_proj
    (TetrisGameEngine.clearLines
      { s with board := TetrisGameEngine.mergeBlocks s.board s.width s.height p }).2
    (TetrisGameEngine.clearLines
      { s with board := TetrisGameEngine.mergeBlocks s.board s.width s.height p }).1
    (p.isTSpin (TetrisGameEngine.mergeBlocks s.board s.width s.height p))
  obtain ⟨hsb, hsl, hsc⟩ := spawnNewPiece_proj
    (TetrisGameEngine.calculateScore
      (TetrisGameEngine.clearLines
        { s with board :=
            TetrisGameEngine.mergeBlocks s.board s.width s.height p }).2
      (TetrisGameEngine.clearLines
        { s with board :=
            TetrisGameEngine.mergeBlocks s.board s.width s.height p }).1
      (p.isTSpin (TetrisGameEngine.mergeBlocks s.board s.width s.height p)))
  rw [hlock]
  refine ⟨?_, ?_, ?_⟩
  · rw [hsb, hcb, hlen2]
    show (TetrisGameEngine.mergeBlocks s.board s.width s.height p).length = s.height
    rw [mergeBlocks_length]
    exact hb
  · rw [hsl, hcl, hlines2, hk]
  · rw [hsc, hcc, hcombo2, hk]

/-- C3 witness: the T piece completing the bottom row of `c3Board` clears
exactly one line, keeps the board at 20 rows, adds 1 to `lines` and starts
a combo. -/
theorem C3_witness :
    (c3State.lockPiece).board.length = c3State.height
    ∧ (c3State.lockPiece).lines = c3State.lines +
        (TetrisGameEngine.fullRowIndices
          (TetrisGameEngine.mergeBlocks c3State.board c3State.width
            c3State.height ⟨PieceType.T, 3, 17, 0⟩) c3State.height).length
    ∧ (c3State.lockPiece).combo =
        (if (TetrisGameEngine.fullRowIndices
              (TetrisGameEngine.mergeBlocks c3State.board c3State.width
                c3State.height ⟨PieceType.T, 3, 17, 0⟩) c3State.height).length = 0
         then 0 else c3State.combo + 1)
    ∧ (TetrisGameEngine.fullRowIndices
        (TetrisGameEngine.mergeBlocks c3State.board c3State.width
          c3State.height ⟨PieceType.T, 3, 17, 0⟩) c3State.height).length = 1 := by
  obtain ⟨h1, h2, h3⟩ := C3_lockPiece_lineClear c3State ⟨PieceType.T, 3, 17, 0⟩ rfl rfl
  exact ⟨h1, h2, h3, by decide⟩

/-- A row of `w` occupied cells has `w` occupied and none empty. -/
theorem counts_replicate (w : Nat) (c : Cellv) :
    occupiedCount (List.replicate w (some c)) = w
    ∧ emptyCount (List.replicate w (some c)) = 0 := by
  induction w with
  | zero => exact ⟨rfl, rfl⟩
  | succ n ih =>
      simp only [occupiedCount, emptyCount] at ih ⊢
      simp [List.replicate_succ, List.filter_cons, ih.1, ih.2]

/-- A garbage row with its hole in range has exactly `width - 1` occupied
cells and exactly one empty cell. -/
theorem garbageRow_counts (w hole : Nat) (hw : hole < w) :
    occupiedCount (TetrisGameEngine.garbageRow w hole) = w - 1
    ∧ emptyCount (TetrisGameEngine.garbageRow w hole) = 1 := by
  induction w generalizing hole with
  | zero => omega
  | succ n ih =>
      cases hole with
      | zero =>
          unfold TetrisGameEngine.garbageRow
          rw [List.replicate_succ]
          obtain ⟨h1, h2⟩ := counts_replicate n (⟨"#666666", "garbage"⟩ : Cellv)
          simp only [occupiedCount, emptyCount] at h1 h2 ⊢
          simp [List.filter_cons, h1, h2]
      | succ h =>
          have hh : h < n := by omega
          obtain ⟨h1, h2⟩ := ih h hh
          unfold TetrisGameEngine.garbageRow at h1 h2 ⊢
          rw [List.replicate_succ]
          simp only [occupiedCount, emptyCount] at h1 h2 ⊢
          simp [List.filter_cons, h1, h2]
          omega

/-- The garbage loop appends exactly its count of rows, each a garbage row
with one in-range hole. -/
theorem addGarbage_spec (n : Nat) : ∀ (w : Nat) (bd : Board) (r : Rng),
    0 < w →
    ∃ gRows : List Row,
      (TetrisGameEngine.addGarbage n w bd r).1 = bd ++ gRows
      ∧ gRows.length = n
      ∧ ∀ row ∈ gRows, occupiedCount row = w - 1 ∧ emptyCount row = 1 := by
  induction n with
  | zero =>
      intro w bd r hw
      exact ⟨[], by simp [TetrisGameEngine.addGarbage], rfl, by simp⟩
  | succ m ih =>
      intro w bd r hw
      obtain ⟨gr, h1, h2, h3⟩ := ih w
        (bd ++ [TetrisGameEngine.garbageRow w (r.seq r.pos % w)])
        ⟨r.seq, r.pos + 1⟩ hw
      refine ⟨TetrisGameEngine.garbageRow w (r.seq r.pos % w) :: gr, ?_, ?_, ?_⟩
      · show (TetrisGameEngine.addGarbage m w
            (bd ++ [TetrisGameEngine.garbageRow w (r.seq r.pos % w)])
            ⟨r.seq, r.pos + 1⟩).1 = _
        rw [h1]
        simp
      · simp [h2]
      · intro row hrow
        rcases List.mem_cons.mp hrow with hrow | hrow
        · subst hrow
          exact garbageRow_counts w _ (Nat.mod_lt _ hw)
        · exact h3 row hrow

/-- C4: for n > 0, `receiveAttack(n)` removes n rows from the top and
appends n garbage rows at the bottom, each with exactly `width - 1`
occupied cells and exactly one empty cell (the oracle-chosen hole); if the
current piece then collides with the mutated board, `gameOver` becomes
true (and is untouched otherwise); `receiveAttack` with n <= 0 leaves the
engine unchanged. -/
theorem C4_receiveAttack_spec (s : TetrisGameEngine) (n : Int)
    (hn : 0 < n) (hw : 0 < s.width) :
    (∃ gRows : List Row,
        (s.receiveAttack n).board = s.board.drop n.toNat ++ gRows
        ∧ gRows.length = n.toNat
        ∧ (∀ row ∈ gRows,
            occupiedCount row = s.width - 1 ∧ emptyCount row = 1))
    ∧ (∀ p, s.currentPiece = some p →
        (isCollidingB (s.receiveAttack n).board s.width s.height p = true →
          (s.receiveAttack n).gameOver = true)
        ∧ (isCollidingB (s.receiveAttack n).board s.width s.height p = false →
          (s.receiveAttack n).gameOver = s.gameOver))
    ∧ (∀ m : Int, m ≤ 0 → s.receiveAttack m = s) := by
  have hboard : (s.receiveAttack n).board =
      (TetrisGameEngine.addGarbage n.toNat s.width (s.board.drop n.toNat) s.rng).1 := by
    unfold TetrisGameEngine.receiveAttack
    rw [if_neg (by omega)]
    dsimp only
    cases s.currentPiece
    · rfl
    · dsimp only
      split_ifs <;> rfl
  refine ⟨?_, ?_, ?_⟩
  · obtain ⟨gr, h1, h2, h3⟩ := addGarbage_spec n.toNat s.width
      (s.board.drop n.toNat) s.rng hw
    exact ⟨gr, by rw [hboard, h1], h2, h3⟩
  · intro p hp
    have hform : s.receiveAttack n =
        (if isCollidingB
            (TetrisGameEngine.addGarbage n.toNat s.width
              (s.board.drop n.toNat) s.rng).1 s.width s.height p = true
         then { s with
                  board := (TetrisGameEngine.addGarbage n.toNat s.width
                    (s.board.drop n.toNat) s.rng).1,
                  rng := (TetrisGameEngine.addGarbage n.toNat s.width
                    (s.board.drop n.toNat) s.rng).2,
                  gameOver := true }
         else { s with
                  board := (TetrisGameEngine.addGarbage n.toNat s.width
                    (s.board.drop n.toNat) s.rng).1,
                  rng := (TetrisGameEngine.addGarbage n.toNat s.width
                    (s.board.drop n.toNat) s.rng).2 }) := by
      unfold TetrisGameEngine.receiveAttack
      rw [if_neg (by omega)]
      dsimp only
      rw [hp]
      dsimp only [TetrisGameEngine.isColliding]
    constructor
    · intro hcol
      rw [hboard] at hcol
      rw [hform, if_pos hcol]
    · intro hcol
      rw [hboard] at hcol
      rw [hform, if_neg (by simp [hcol])]
  · intro m hm
    unfold TetrisGameEngine.receiveAttack
    rw [if_pos hm]

/-- C4 witness: one garbage line delivered to the baseline state. -/
theorem C4_witness :
    (∃ gRows : List Row,
        (baseEngine.receiveAttack 1).board =
          baseEngine.board.drop (1 : Int).toNat ++ gRows
        ∧ gRows.length = (1 : Int).toNat
        ∧ (∀ row ∈ gRows,
            occupiedCount row = baseEngine.width - 1 ∧ emptyCount row = 1))
    ∧ (∀ p, baseEngine.currentPiece = some p →
        (isCollidingB (baseEngine.receiveAttack 1).board baseEngine.width
            baseEngine.height p = true →
          (baseEngine.receiveAttack 1).gameOver = true)
        ∧ (isCollidingB (baseEngine.receiveAttack 1).board baseEngine.width
            baseEngine.height p = false →
          (baseEngine.receiveAttack 1).gameOver = baseEngine.gameOver))
    ∧ (∀ m : Int, m ≤ 0 → baseEngine.receiveAttack m = baseEngine) :=
  C4_receiveAttack_spec baseEngine 1 (by decide) (by decide)

/-- C10: with a piece already held, `canHold` set and the game running,
the hold call swaps the current and held piece types, respawns the
swapped-in piece at `(floor(width/2) - 2, 0)` and returns true with no
collision check: the board and `gameOver` are untouched (so the current
piece may overlap occupied cells) — unlike `spawnNewPiece`, which sets
`gameOver` whenever the promoted piece collides. -/
theorem C10_holdSwap_spec (s : TetrisGameEngine) (p h : TetrisPiece)
    (hc : s.canHold = true) (hp : s.currentPiece = some p)
    (hh : s.holdPiece = some h) (hg : s.gameOver = false) :
    s.holdSwap =
      (true,
        { s with
            holdPiece := some (newPiece p.type),
            currentPiece := some
              { newPiece h.type with
                  x := ((s.width / 2 : Nat) : Int) - 2, y := 0 },
            canHold := false })
    ∧ (s.holdSwap).2.gameOver = s.gameOver
    ∧ (s.holdSwap).2.board = s.board
    ∧ (∀ (t : TetrisGameEngine) (q : TetrisPiece), t.nextPiece = some q →
        isCollidingB t.board t.width t.height q = true →
        (t.spawnNewPiece).gameOver = true) := by
  have hmain : s.holdSwap =
      (true,
        { s with
            holdPiece := some (newPiece p.type),
            currentPiece := some
              { newPiece h.type with
                  x := ((s.width / 2 : Nat) : Int) - 2, y := 0 },
            canHold := false }) := by
    unfold TetrisGameEngine.holdSwap
    rw [if_neg (by simp [hc])]
    dsimp only
    rw [hp]
    dsimp only
    rw [if_neg (by simp [hg])]
    rw [hh]
  refine ⟨hmain, by rw [hmain], by rw [hmain], ?_⟩
  intro t q hq hcol
  unfold TetrisGameEngine.spawnNewPiece
  dsimp only
  rw [hq]
  dsimp only
  split_ifs with hcl
  · rfl
  · exact absurd hcol (by simpa [TetrisGameEngine.isColliding] using hcl)

/-- C10 witness: swapping at `c10State` succeeds, leaves `gameOver` false
and the board unchanged, yet the swapped-in I piece overlaps an occupied
cell — while `spawnNewPiece` would have flagged game over. -/
theorem C10_witness :
    (c10State.holdSwap =
      (true,
        { c10State with
            holdPiece := some (newPiece PieceType.T),
            currentPiece := some
              { newPiece PieceType.I with
                  x := ((c10State.width / 2 : Nat) : Int) - 2, y := 0 },
            canHold := false })
    ∧ (c10State.holdSwap).2.gameOver = c10State.gameOver
    ∧ (c10State.holdSwap).2.board = c10State.board
    ∧ (∀ (t : TetrisGameEngine) (q : TetrisPiece), t.nextPiece = some q →
        isCollidingB t.board t.width t.height q = true →
        (t.spawnNewPiece).gameOver = true))
    ∧ (c10State.holdSwap).2.gameOver = false
    ∧ (∀ q, (c10State.holdSwap).2.currentPiece = some q →
        isCollidingB (c10State.holdSwap).2.board c10State.width
          c10State.height q = true) := by
  refine ⟨C10_holdSwap_spec c10State (newPiece PieceType.T)
    (newPiece PieceType.I) rfl rfl rfl rfl, by decide, by decide⟩

/-- C7 (amended): as long as the requested count stays within the current
bag, `preview` consumes no randomness (the oracle cursor — and with it the
generator's whole observable state — is untouched) and returns exactly the
types the next real draws produce.  (Past the current bag, `preview`
shuffles a simulated refill with fresh oracle values, see the
counterexample.) -/
theorem C7_preview_amended (g : PieceGenerator) (n : Nat) (r : Rng)
    (hn : n ≤ g.bag.length) :
    (g.preview n r).2 = r ∧ (g.preview n r).1 = (drawTypes n g r).1 := by
  induction n generalizing g with
  | zero => exact ⟨rfl, rfl⟩
  | succ m ih =>
      have hne : g.bag ≠ [] := by
        intro he
        rw [he] at hn
        simp at hn
      have hemp : g.bag.isEmpty = false := by
        simp [List.isEmpty_eq_false, hne]
      obtain ⟨t, hlast⟩ : ∃ t, g.bag.getLast? = some t := by
        cases hl : g.bag.getLast? with
        | none => exact absurd (List.getLast?_eq_none_iff.mp hl) hne
        | some t => exact ⟨t, rfl⟩
      have hlen : m ≤ g.bag.dropLast.length := by
        rw [List.length_dropLast]
        omega
      obtain ⟨ih1, ih2⟩ := ih ⟨g.bag.dropLast⟩ hlen
      have step : g.preview (m + 1) r =
          (t :: (PieceGenerator.preview ⟨g.bag.dropLast⟩ m r).1,
            (PieceGenerator.preview ⟨g.bag.dropLast⟩ m r).2) := by
        show previewAux (m + 1) g.bag r = _
        conv_lhs => rw [previewAux]
        rw [hemp, if_neg Bool.false_ne_true]
        dsimp only
        rw [hlast]
        rfl
      have hnext : g.getNext r = (some (newPiece t), ⟨g.bag.dropLast⟩, r) := by
        unfold PieceGenerator.getNext
        rw [hemp, if_neg Bool.false_ne_true]
        dsimp only
        rw [hlast]
      have step2 : drawTypes (m + 1) g r =
          ((newPiece t).type :: (drawTypes m ⟨g.bag.dropLast⟩ r).1,
            (drawTypes m ⟨g.bag.dropLast⟩ r).2) := by
        conv_lhs => rw [drawTypes]
        rw [hnext]
      refine ⟨?_, ?_⟩
      · rw [step]
        exact ih1
      · rw [step, step2]
        dsimp only
        rw [ih2]
        rfl

/-- C7 witness of the amended claim: a two-piece bag previews exactly the
next two draws, without advancing the oracle. -/
theorem C7_witness :
    ((⟨[PieceType.I, PieceType.O]⟩ : PieceGenerator).preview 2 c7Rng).2 = c7Rng
    ∧ ((⟨[PieceType.I, PieceType.O]⟩ : PieceGenerator).preview 2 c7Rng).1 =
        (drawTypes 2 ⟨[PieceType.I, PieceType.O]⟩ c7Rng).1 :=
  C7_preview_amended ⟨[PieceType.I, PieceType.O]⟩ 2 c7Rng (by decide)

/-- C7 counterexample: the claim as stated is false once the preview
crosses a bag refill.  With a one-piece bag, `preview 2` shuffles its
simulated refill using the next six oracle values, but the real second
draw refills with the six values after those: here preview returns
`[I, I]` while the real draws after the preview produce `[I, O]`. -/
theorem C7_counterexample :
    (c7Gen.preview 2 c7Rng).1 ≠
      (drawTypes 2 c7Gen (c7Gen.preview 2 c7Rng).2).1
    ∧ (c7Gen.preview 2 c7Rng).1 = [PieceType.I, PieceType.I]
    ∧ (drawTypes 2 c7Gen (c7Gen.preview 2 c7Rng).2).1 =
        [PieceType.I, PieceType.O] := by
  exact ⟨by decide, by decide, by decide⟩

/-- C8: the claim fails on the code.  At `c8State` (game running, T piece
boxed in so that every wall-kick placement collides) `rotatePiece(1)`
returns false leaving the state unchanged, so the rotation loop of
`executeBestMove` — `while (rotation !== target) rotatePiece(1)` — never
reaches a target rotation of 1: for every iteration bound the loop is
still running.  The execution procedure therefore does not terminate. -/
theorem C8_executeBestMove_loops :
    c8State.gameOver = false
    ∧ TetrisGameEngine.rotatePiece c8State 1 = (false, c8State)
    ∧ (∀ fuel, rotateLoop fuel c8State 1 = none) := by
  have hstep : TetrisGameEngine.rotatePiece c8State 1 = (false, c8State) := by
    rfl
  refine ⟨rfl, hstep, ?_⟩
  intro fuel
  induction fuel with
  | zero => rfl
  | succ f ih =>
      have hunf : rotateLoop (f + 1) c8State 1 =
          rotateLoop f (TetrisGameEngine.rotatePiece c8State 1).2 1 := rfl
      rw [hunf, hstep]
      exact ih

/-- The frame predicate is reflexive at any in-bounds frontier. -/
theorem preservedBelow_refl (m : Nat) (h : AIHeap) (hm : m ≤ h.next) :
    PreservedBelow m h h :=
  ⟨hm, fun _ _ => ⟨rfl, rfl⟩⟩

/-- The frame predicate is transitive. -/
theorem preservedBelow_trans {m : Nat} {h1 h2 h3 : AIHeap}
    (a : PreservedBelow m h1 h2) (b : PreservedBelow m h2 h3) :
    PreservedBelow m h1 h3 :=
  ⟨b.1, fun n hn =>
    ⟨(b.2 n hn).1.trans (a.2 n hn).1, (b.2 n hn).2.trans (a.2 n hn).2⟩⟩

/-- Allocating a fresh row writes only at the frontier. -/
theorem allocRow_preserves (m : Nat) (h : AIHeap) (row : Row)
    (hm : m ≤ h.next) : PreservedBelow m h (allocRow h row).2 := by
  refine ⟨?_, ?_⟩
  · show m ≤ h.next + 1
    omega
  · intro n hn
    refine ⟨?_, rfl⟩
    show (if n = h.next then row else h.rows n) = h.rows n
    rw [if_neg (by omega)]

/-- Allocating a fresh piece writes only at the frontier. -/
theorem allocPiece_preserves (m : Nat) (h : AIHeap) (p : TetrisPiece)
    (hm : m ≤ h.next) : PreservedBelow m h (allocPiece h p).2 := by
  refine ⟨?_, ?_⟩
  · show m ≤ h.next + 1
    omega
  · intro n hn
    refine ⟨rfl, ?_⟩
    show (if n = h.next then p else h.pieces n) = h.pieces n
    rw [if_neg (by omega)]

/-- Writing through a reference at or above the frontier preserves
everything below it. -/
theorem writeRow_preserves (m : Nat) (h : AIHeap) (r : Nat) (row : Row)
    (hm : m ≤ h.next) (hr : m ≤ r) : PreservedBelow m h (writeRow h r row) := by
  refine ⟨hm, ?_⟩
  intro n hn
  refine ⟨?_, rfl⟩
  show (if n = r then row else h.rows n) = h.rows n
  rw [if_neg (by omega)]

/-- Writing a piece object at or above the frontier preserves everything
below it. -/
theorem writePiece_preserves (m : Nat) (h : AIHeap) (r : Nat) (p : TetrisPiece)
    (hm : m ≤ h.next) (hr : m ≤ r) : PreservedBelow m h (writePiece h r p) := by
  refine ⟨hm, ?_⟩
  intro n hn
  refine ⟨rfl, ?_⟩
  show (if n = r then p else h.pieces n) = h.pieces n
  rw [if_neg (by omega)]

/-- The row-copying pass allocates only fresh references: everything below
the frontier survives and every returned reference is at or above it. -/
theorem allocRowsCopy_spec (m : Nat) : ∀ (refs : List Nat) (h : AIHeap),
    m ≤ h.next →
    PreservedBelow m h (allocRowsCopy h refs).2
    ∧ ∀ r ∈ (allocRowsCopy h refs).1, m ≤ r := by
  intro refs
  induction refs with
  | nil =>
      intro h hm
      exact ⟨preservedBelow_refl m h hm, by simp [allocRowsCopy]⟩
  | cons r rest ih =>
      intro h hm
      have h1 := allocRow_preserves m h (h.rows r) hm
      obtain ⟨h2, h3⟩ := ih (allocRow h (h.rows r)).2 h1.1
      constructor
      · show PreservedBelow m h (allocRowsCopy (allocRow h (h.rows r)).2 rest).2
        exact preservedBelow_trans h1 h2
      · intro x hx
        have hx2 : x = (allocRow h (h.rows r)).1 ∨
            x ∈ (allocRowsCopy (allocRow h (h.rows r)).2 rest).1 :=
          List.mem_cons.mp hx
        rcases hx2 with hx2 | hx2
        · rw [hx2]
          show m ≤ h.next
          exact hm
        · exact h3 x hx2

/-- The block-writing pass of `evaluatePosition` writes only through the
given (fresh) temporary row references. -/
theorem writeBlocks_preserves (m w hgt : Nat) (cv : Cell) (tempRefs : List Nat)
    (hrefs : ∀ r ∈ tempRefs, m ≤ r) :
    ∀ (blocks : List (Int × Int)) (h : AIHeap), m ≤ h.next →
      PreservedBelow m h (writeBlocks w hgt cv tempRefs h blocks) := by
  intro blocks
  induction blocks with
  | nil =>
      intro h hm
      exact preservedBelow_refl m h hm
  | cons b rest ih =>
      intro h hm
      have hstep : PreservedBelow m h
          (if 0 ≤ b.2 ∧ b.2 < (hgt : Int) ∧ 0 ≤ b.1 ∧ b.1 < (w : Int) then
            match tempRefs.get? b.2.toNat with
            | some r => writeRow h r ((h.rows r).set b.1.toNat cv)
            | none => h
          else h) := by
        split_ifs
        · cases hget : tempRefs.get? b.2.toNat
          · exact preservedBelow_refl m h hm
          · exact writeRow_preserves m h _ _ hm
              (hrefs _ (List.get?_mem hget))
        · exact preservedBelow_refl m h hm
      exact preservedBelow_trans hstep (ih _ hstep.1)

/-- The unshift loop allocates only fresh empty rows. -/
theorem padRefs_preserves (m w : Nat) : ∀ (n : Nat) (h : AIHeap)
    (refs : List Nat), m ≤ h.next →
    PreservedBelow m h (padRefs h w n refs).2 := by
  intro n
  induction n with
  | zero =>
      intro h refs hm
      exact preservedBelow_refl m h hm
  | succ k ih =>
      intro h refs hm
      have h1 := allocRow_preserves m h (emptyRow w) hm
      exact preservedBelow_trans h1 (ih _ _ h1.1)

/-- The AI's `removeClearedLines` filters references and allocates new
empty rows; it writes nothing below the frontier. -/
theorem removeClearedRefs_preserves (m : Nat) (h : AIHeap) (w hgt : Nat)
    (refs : List Nat) (hm : m ≤ h.next) :
    PreservedBelow m h (removeClearedRefs h w hgt refs).2 :=
  padRefs_preserves m w _ h _ hm

/-- `evaluatePosition` preserves the heap below the caller's frontier: all
its writes go to the freshly copied rows. -/
theorem evaluatePositionH_preserves (m : Nat) (params : AIParams)
    (h : AIHeap) (tref : Nat) (e : EngineView) (hm : m ≤ h.next) :
    PreservedBelow m h (evaluatePositionH params h tref e).2 := by
  obtain ⟨hA, hArefs⟩ := allocRowsCopy_spec m e.boardRefs h hm
  have hB := writeBlocks_preserves m e.width e.height
    (some ⟨PIECE_COLORS ((allocRowsCopy h e.boardRefs).2.pieces tref).type,
      typeName ((allocRowsCopy h e.boardRefs).2.pieces tref).type⟩)
    (allocRowsCopy h e.boardRefs).1 hArefs
    ((allocRowsCopy h e.boardRefs).2.pieces tref).getBlocks
    (allocRowsCopy h e.boardRefs).2 hA.1
  have hC := removeClearedRefs_preserves m _ e.width e.height
    (allocRowsCopy h e.boardRefs).1 hB.1
  exact preservedBelow_trans (preservedBelow_trans hA hB) hC

/-- The drop probe only rewrites the cloned test piece. -/
theorem dropLoopH_preserves (m tref : Nat) (e : EngineView) (hr : m ≤ tref) :
    ∀ (fuel : Nat) (h : AIHeap), m ≤ h.next →
      PreservedBelow m h (dropLoopH fuel h tref e) := by
  intro fuel
  induction fuel with
  | zero =>
      intro h hm
      exact preservedBelow_refl m h hm
  | succ f ih =>
      intro h hm
      show PreservedBelow m h
        (if isCollidingB (refBoard h e) e.width e.height (h.pieces tref) then h
         else dropLoopH f
           (writePiece h tref
             { h.pieces tref with y := (h.pieces tref).y + 1 }) tref e)
      split_ifs
      · exact preservedBelow_refl m h hm
      · have h1 := writePiece_preserves m h tref
          { h.pieces tref with y := (h.pieces tref).y + 1 } hm hr
        exact preservedBelow_trans h1 (ih _ h1.1)

/-- One candidate trial touches only the piece clone and the evaluation's
fresh rows. -/
theorem tryCandidate_preserves (m : Nat) (params : AIParams) (e : EngineView)
    (rot : Nat) (x : Int) (acc : Option MoveCand × AIHeap)
    (hm : m ≤ acc.2.next) :
    PreservedBelow m acc.2 (tryCandidate params e rot x acc).2 := by
  unfold tryCandidate
  cases hcr : e.currentPieceRef with
  | none => exact preservedBelow_refl m acc.2 hm
  | some cref =>
      dsimp only
      set a := allocPiece acc.2 (acc.2.pieces cref) with haDef
      set h1 := writePiece a.2 a.1
        { a.2.pieces a.1 with rotation := rot, x := x, y := 0 } with h1Def
      set h2 := dropLoopH (e.height + 8) h1 a.1 e with h2Def
      set h3 := writePiece h2 a.1
        { h2.pieces a.1 with y := (h2.pieces a.1).y - 1 } with h3Def
      have htref : m ≤ a.1 := by
        rw [haDef]
        show m ≤ acc.2.next
        exact hm
      have hA : PreservedBelow m acc.2 a.2 := by
        rw [haDef]
        exact allocPiece_preserves m acc.2 (acc.2.pieces cref) hm
      have hB : PreservedBelow m a.2 h1 := by
        rw [h1Def]
        exact writePiece_preserves m a.2 a.1
          { a.2.pieces a.1 with rotation := rot, x := x, y := 0 } hA.1 htref
      have hC : PreservedBelow m h1 h2 := by
        rw [h2Def]
        exact dropLoopH_preserves m a.1 e htref (e.height + 8) h1 hB.1
      have hD : PreservedBelow m h2 h3 := by
        rw [h3Def]
        exact writePiece_preserves m h2 a.1
          { h2.pieces a.1 with y := (h2.pieces a.1).y - 1 } hC.1 htref
      have hAD : PreservedBelow m acc.2 h3 :=
        preservedBelow_trans (preservedBelow_trans hA hB)
          (preservedBelow_trans hC hD)
      split_ifs
      · exact hAD
      · exact preservedBelow_trans hAD
          (evaluatePositionH_preserves m params h3 a.1 e hAD.1)

/-- The candidate fold of `findBestMove` preserves the caller's frame. -/
theorem tryFold_preserves (m : Nat) (params : AIParams) (e : EngineView) :
    ∀ (l : List (Nat × Int)) (acc : Option MoveCand × AIHeap),
      m ≤ acc.2.next →
      PreservedBelow m acc.2
        ((l.foldl (fun acc rx => tryCandidate params e rx.1 rx.2 acc) acc)).2 := by
  intro l
  induction l with
  | nil =>
      intro acc hm
      exact preservedBelow_refl m acc.2 hm
  | cons rx rest ih =>
      intro acc hm
      rw [List.foldl_cons]
      have h1 := tryCandidate_preserves m params e rx.1 rx.2 acc hm
      exact preservedBelow_trans h1 (ih _ h1.1)

/-- C9: the move search never mutates the live board or the live current
piece — after `findBestMove` the board read through its row references and
the current piece object are identical to before; all trial placements
operated on the cloned piece and freshly copied rows. -/
theorem C9_moveSearch_frame (params : AIParams) (h : AIHeap) (e : EngineView)
    (hb : ∀ r ∈ e.boardRefs, r < h.next)
    (hc : ∀ cref, e.currentPieceRef = some cref → cref < h.next) :
    refBoard (findBestMoveH params h e).2 e = refBoard h e
    ∧ (∀ cref, e.currentPieceRef = some cref →
        ((findBestMoveH params h e).2).pieces cref = h.pieces cref) := by
  have hpres : PreservedBelow h.next h (findBestMoveH params h e).2 := by
    unfold findBestMoveH
    cases e.currentPieceRef
    · exact preservedBelow_refl h.next h le_rfl
    · exact tryFold_preserves h.next params e _ (none, h) le_rfl
  constructor
  · unfold refBoard
    apply List.map_congr_left
    intro r hr
    exact (hpres.2 r (hb r hr)).1
  · intro cref hcref
    exact (hpres.2 cref (hc cref hcref)).2

/-- C9 witness: at a concrete 4x4 heap-backed engine view the search
leaves the live rows and the live piece object untouched. -/
theorem C9_witness :
    refBoard (findBestMoveH c9Params c9Heap c9View).2 c9View =
      refBoard c9Heap c9View
    ∧ (∀ cref, c9View.currentPieceRef = some cref →
        ((findBestMoveH c9Params c9Heap c9View).2).pieces cref =
          c9Heap.pieces cref) :=
  C9_moveSearch_frame c9Params c9Heap c9View (by decide)
    (fun cref hcref => by
      injection hcref with hv
      rw [← hv]
      decide)
